import Mathlib

/-!
Verification of the CMDB orchestration inventory plugin
(`cmdb_orchestration.py`, class `InventoryModule`).

The embedding models Python values by the inductive `PyVal`, device records
as ordered association lists (Python dicts preserve insertion order), and
code that can raise as `Except PyExc`.  Floats are not modelled: no decision
in the plugin depends on a float value.  Exception *message* texts of
library-raised exceptions (TypeError and similar) are abbreviated; no claim
inspects them.
-/

namespace CmdbOrchestration

/-- Python values as they occur in device records and configuration. -/
inductive PyVal where
  | vNone
  | vBool (b : Bool)
  | vInt (n : Int)
  | vStr (s : String)
  | vList (xs : List PyVal)
  | vDict (kvs : List (String × PyVal))

/-- Exceptions the modelled code can raise.  `ansibleError` stands for
`AnsibleError` (the plugin's fatal error / SafetyViolation signal). -/
inductive PyExc where
  | typeError (msg : String)
  | unboundLocal (msg : String)
  | keyError (msg : String)
  | ansibleError (msg : String)
  deriving DecidableEq

mutual

/-- Python `==`.  `bool` is a subclass of `int`, so `True == 1`.  Dict
equality is modelled structurally on the ordered representation. -/
def pyEq : PyVal → PyVal → Bool
  | .vNone, .vNone => true
  | .vBool a, .vBool b => a == b
  | .vBool a, .vInt n => (if a then (1 : Int) else 0) == n
  | .vInt n, .vBool b => n == (if b then (1 : Int) else 0)
  | .vInt a, .vInt b => a == b
  | .vStr a, .vStr b => a == b
  | .vList xs, .vList ys => pyEqList xs ys
  | .vDict xs, .vDict ys => pyEqPairs xs ys
  | _, _ => false

def pyEqList : List PyVal → List PyVal → Bool
  | [], [] => true
  | x :: xs, y :: ys => pyEq x y && pyEqList xs ys
  | _, _ => false

def pyEqPairs : List (String × PyVal) → List (String × PyVal) → Bool
  | [], [] => true
  | (k, x) :: xs, (l, y) :: ys => k == l && pyEq x y && pyEqPairs xs ys
  | _, _ => false

end

mutual

/-- Python `repr`, as used by f-string interpolation of lists and dicts
(string escaping inside `repr` is simplified to plain quoting). -/
def pyRepr : PyVal → String
  | .vNone => "None"
  | .vBool true => "True"
  | .vBool false => "False"
  | .vInt n => toString n
  | .vStr s => "\x27" ++ s ++ "\x27"
  | .vList xs => "[" ++ pyReprList xs ++ "]"
  | .vDict kvs => "\x7b" ++ pyReprPairs kvs ++ "\x7d"

def pyReprList : List PyVal → String
  | [] => ""
  | [x] => pyRepr x
  | x :: xs => pyRepr x ++ ", " ++ pyReprList xs

def pyReprPairs : List (String × PyVal) → String
  | [] => ""
  | [(k, v)] => "\x27" ++ k ++ "\x27: " ++ pyRepr v
  | (k, v) :: kvs => "\x27" ++ k ++ "\x27: " ++ pyRepr v ++ ", " ++ pyReprPairs kvs

end

/-- Python `str`, as used by f-string interpolation. -/
def pyFStr : PyVal → String
  | .vStr s => s
  | v => pyRepr v

/-- Python truthiness. -/
def pyTruthy : PyVal → Bool
  | .vNone => false
  | .vBool b => b
  | .vInt n => n != 0
  | .vStr s => !s.isEmpty
  | .vList xs => !xs.isEmpty
  | .vDict kvs => !kvs.isEmpty

/-- `isinstance(v, str)`. -/
def isStr : PyVal → Bool
  | .vStr _ => true
  | _ => false

/-- `isinstance(v, int)` (true for `bool`, a subclass of `int`). -/
def isIntInst : PyVal → Bool
  | .vInt _ => true
  | .vBool _ => true
  | _ => false

/-- `isinstance(v, (str, int, float, bool))`; floats are not modelled. -/
def isScalar : PyVal → Bool
  | .vStr _ => true
  | .vInt _ => true
  | .vBool _ => true
  | _ => false

/-- Numeric value of an int-like Python value (`True` counts as 1). -/
def pyToInt : PyVal → Int
  | .vInt n => n
  | .vBool b => if b then 1 else 0
  | _ => 0

/-- Python `len` on the values it is applied to in the plugin. -/
def pyLen : PyVal → Nat
  | .vStr s => s.length
  | .vList xs => xs.length
  | .vDict kvs => kvs.length
  | _ => 0

/-- `type(v)` as rendered by an f-string. -/
def pyTypeName : PyVal → String
  | .vNone => "<class \x27NoneType\x27>"
  | .vBool _ => "<class \x27bool\x27>"
  | .vInt _ => "<class \x27int\x27>"
  | .vStr _ => "<class \x27str\x27>"
  | .vList _ => "<class \x27list\x27>"
  | .vDict _ => "<class \x27dict\x27>"

/-- First-match lookup in an ordered association list (Python dict lookup;
dict keys are unique, so first match is the match). -/
def assocFind? {α : Type} : List (String × α) → String → Option α
  | [], _ => none
  | (k, v) :: t, key => if k = key then some v else assocFind? t key

/-- Keys of an association list in order. -/
def assocKeys {α : Type} (m : List (String × α)) : List String := m.map (·.1)

/-- Python dict assignment `m[k] = v`: replace in place, else append. -/
def assocSet {α : Type} : List (String × α) → String → α → List (String × α)
  | [], k, v => [(k, v)]
  | (k', v') :: t, k, v => if k' = k then (k', v) :: t else (k', v') :: assocSet t k v

/-- Update the value at a key in place; no-op when the key is absent. -/
def assocMod {α : Type} : List (String × α) → String → (α → α) → List (String × α)
  | [], _, _ => []
  | (k', v') :: t, k, f => if k' = k then (k', f v') :: t else (k', v') :: assocMod t k f

/-- Python `k in d` for dicts. -/
def assocHasKey {α : Type} (m : List (String × α)) (k : String) : Bool :=
  (assocFind? m k).isSome

/-- Repeated dict assignment from a pair list (insertion order). -/
def foldAssocSet {α : Type} (m : List (String × α)) (ps : List (String × α)) :
    List (String × α) :=
  ps.foldl (fun m kv => assocSet m kv.1 kv.2) m

/-- The value of the last write a pair sequence makes to a key. -/
def lastVal {α : Type} : List (String × α) → String → Option α
  | [], _ => none
  | kv :: t, k =>
    match lastVal t k with
    | some v => some v
    | none => if kv.1 = k then some kv.2 else none

/-- First-defined choice on options. -/
def optFirst {α : Type} : Option α → Option α → Option α
  | some v, _ => some v
  | none, b => b

/-- A raw device record: a Python dict with string keys. -/
abbrev Device := List (String × PyVal)

/-- Python `d.get(k)` (defaults to `None`). -/
def pyGet (d : Device) (k : String) : PyVal := (assocFind? d k).getD .vNone

/-- Python `d.get(k, dflt)`. -/
def pyGetD (d : Device) (k : String) (dflt : PyVal) : PyVal := (assocFind? d k).getD dflt

/-- Python `x in l` for a list (membership via `==`). -/
def pyIn (x : PyVal) (l : List PyVal) : Bool := l.any (fun e => pyEq e x)

/-- Python `s.startswith(p)` (character-list form so that proofs can
evaluate it). -/
def pyStartsWith (s p : String) : Bool := p.data.isPrefixOf s.data

/-- `re.match` with a `$`-anchored pattern: `$` also matches just before one
trailing newline, and no character class in the plugin's patterns contains a
newline, so matching is full-match after stripping one trailing newline. -/
def reDollarTarget (s : String) : String :=
  if s.data.getLast? = some '\n' then s.dropRight 1 else s

/-- Middle-and-last part of `[a-zA-Z0-9][a-zA-Z0-9-_.]*[a-zA-Z0-9]`: the
remaining characters after the first, the last of which must be
alphanumeric and the rest alphanumeric, `-`, `_` or `.`. -/
def nameTail : List Char → Bool
  | [] => false
  | [c] => c.isAlphanum
  | c :: rest => (c.isAlphanum || c == '-' || c == '_' || c == '.') && nameTail rest

/-- `re.match(r'^[a-zA-Z0-9][a-zA-Z0-9-_.]*[a-zA-Z0-9]$', s)` succeeds. -/
def nameFormatOk (s : String) : Bool :=
  match (reDollarTarget s).data with
  | [] => false
  | c :: rest => c.isAlphanum && nameTail rest

/-- `re.match(r'^[a-zA-Z0-9][a-zA-Z0-9-]*[a-zA-Z0-9]*$', s)` succeeds
(the trailing `[a-zA-Z0-9]*` is subsumed by the middle class). -/
def hostnameLabelOk (s : String) : Bool :=
  match (reDollarTarget s).data with
  | [] => false
  | c :: rest => c.isAlphanum && rest.all (fun c => c.isAlphanum || c == '-')

/-- Digit-string value in a base, `none` when empty or out of range. -/
def digitsVal (base : Nat) : List Char → Option Nat
  | [] => none
  | cs => cs.foldl (fun acc c =>
      match acc with
      | none => none
      | some n =>
        let d :=
          if c.isDigit then some (c.toNat - '0'.toNat)
          else if 'a' ≤ c ∧ c ≤ 'f' then some (c.toNat - 'a'.toNat + 10)
          else if 'A' ≤ c ∧ c ≤ 'F' then some (c.toNat - 'A'.toNat + 10)
          else none
        match d with
        | some d => if d < base then some (n * base + d) else none
        | none => none) (some 0)

/-- One numeric part of an `inet_aton` address: C-style number
(`0x` hex, leading-`0` octal, else decimal). -/
def inetPart? : List Char → Option Nat
  | [] => none
  | ['0'] => some 0
  | '0' :: 'x' :: rest => digitsVal 16 rest
  | '0' :: 'X' :: rest => digitsVal 16 rest
  | '0' :: rest => digitsVal 8 rest
  | cs => digitsVal 10 cs

/-- Split a character list on dots (`s.split('.')` shape: an empty input
gives one empty part, a trailing dot a trailing empty part). -/
def splitDot : List Char → List (List Char)
  | [] => [[]]
  | c :: rest =>
    if c = '.' then [] :: splitDot rest
    else
      match splitDot rest with
      | h :: t => (c :: h) :: t
      | [] => [[c]]

/-- `socket.inet_aton(s)` succeeds: one to four C-style numeric parts
separated by dots, each within the range its position allows. -/
def inetAtonOk (s : String) : Bool :=
  match (splitDot s.data).mapM inetPart? with
  | none => false
  | some [a] => a ≤ 4294967295
  | some [a, b] => a ≤ 255 && b ≤ 16777215
  | some [a, b, c] => a ≤ 255 && b ≤ 255 && c ≤ 65535
  | some [a, b, c, d] => a ≤ 255 && b ≤ 255 && c ≤ 255 && d ≤ 255
  | some _ => false

/-! ## Field validator (`_validate_individual_devices`, lines 230-289) -/

def requiredFields : List String := ["name", "device_type", "vendor", "mgmt_ip"]

def validDeviceTypes : List String :=
  ["router", "switch", "firewall", "load_balancer", "wireless_controller"]

def validVendors : List String :=
  ["cisco", "arista", "juniper", "fortinet", "palo_alto", "f5", "mikrotik"]

/-- The device-name block (lines 245-251): length check, the line binding
the function-local `re`, then `re.match`, which raises `TypeError` on a
non-string name.  Returns the `re`-bound state and the error list. -/
def nameStep (reImported : Bool) (device : Device) (errs : List String) :
    Except PyExc (Bool × List String) :=
  match assocFind? device "name" with
  | none => .ok (reImported, errs)
  | some name =>
    let lenBad : Bool :=
      match name with
      | .vStr s => decide (s.length < 2) || decide (s.length > 63)
      | _ => true
    let errs := if lenBad then errs ++ ["Invalid name length: " ++ pyFStr name] else errs
    match name with
    | .vStr s =>
      let errs := if !nameFormatOk s then errs ++ ["Invalid name format: " ++ s] else errs
      .ok (true, errs)
    | _ => .error (.typeError "expected string or bytes-like object")

/-- The management-IP block (lines 263-272): `inet_aton` (raising
`TypeError` on a non-string), falling back to the hostname pattern, whose
`re` reference raises `UnboundLocalError` when the function-local `re` was
never bound. -/
def mgmtStep (reImported : Bool) (device : Device) (errs : List String) :
    Except PyExc (List String) :=
  let mip := pyGet device "mgmt_ip"
  if pyTruthy mip then
    match mip with
    | .vStr s =>
      if inetAtonOk s then .ok errs
      else if !reImported then
        .error (.unboundLocal "local variable \x27re\x27 referenced before assignment")
      else if !hostnameLabelOk s then .ok (errs ++ ["Invalid mgmt_ip format: " ++ s])
      else .ok errs
    | _ => .error (.typeError "inet_aton argument must be str")
  else .ok errs

/-- One iteration of the validation loop body.  `reImported` models the
function-local binding of `re` (bound inside the `'name' in device`
branch); using `re` before any iteration bound it raises.  Returns the
updated binding state and the `device_errors` list; raises where the
source raises. -/
def validateDevice (reImported : Bool) (device : Device) :
    Except PyExc (Bool × List String) :=
  -- required fields present and truthy
  let errs := requiredFields.filterMap (fun f =>
    if !assocHasKey device f || !pyTruthy (pyGet device f) then
      some ("Missing required field: " ++ f)
    else none)
  -- device name validation (DNS compliant)
  match nameStep reImported device errs with
  | .error e => .error e
  | .ok (reImported, errs) =>
    -- device type validation
    let dtv := pyGet device "device_type"
    let errs := if !pyIn dtv (validDeviceTypes.map .vStr) then
        errs ++ ["Invalid device_type: " ++ pyFStr dtv ++ ". Must be one of: " ++
          pyFStr (.vList (validDeviceTypes.map .vStr))]
      else errs
    -- vendor validation
    let errs := if !pyIn (pyGet device "vendor") (validVendors.map .vStr) then
        errs ++ ["Invalid vendor: " ++ pyFStr (pyGet device "vendor") ++
          ". Must be one of: " ++ pyFStr (.vList (validVendors.map .vStr))]
      else errs
    -- management IP validation
    match mgmtStep reImported device errs with
    | .error e => .error e
    | .ok errs =>
      -- SSH port validation
      let sp := pyGetD device "ssh_port" (.vInt 22)
      let errs := if !isIntInst sp || pyToInt sp < 1 || pyToInt sp > 65535 then
          errs ++ ["Invalid ssh_port: " ++ pyFStr sp ++ ". Must be 1-65535"]
        else errs
      -- custom fields validation
      let errs := errs ++ device.filterMap (fun kv =>
        if pyStartsWith kv.1 "custom_" && !isScalar kv.2 then
          some ("Custom field " ++ kv.1 ++ " must be scalar value, got: " ++
            pyTypeName kv.2)
        else none)
      .ok (reImported, errs)

/-- The aggregated error line for one invalid device. -/
def deviceErrorLine (i : Nat) (device : Device) (errs : List String) : String :=
  "Device " ++ toString (i + 1) ++ " (" ++ pyFStr (pyGetD device "name" (.vStr "unnamed")) ++
    "): " ++ String.intercalate "; " errs

/-- The `for i, device in enumerate(devices)` loop of
`_validate_individual_devices`. -/
def validateLoop (reImported : Bool) (i : Nat) (validAcc : List Device)
    (errAcc : List String) : List Device → Except PyExc (List Device × List String)
  | [] => .ok (validAcc, errAcc)
  | d :: rest =>
    match validateDevice reImported d with
    | .error e => .error e
    | .ok (r', derrs) =>
      if derrs.isEmpty then validateLoop r' (i + 1) (validAcc ++ [d]) errAcc rest
      else validateLoop r' (i + 1) validAcc (errAcc ++ [deviceErrorLine i d derrs]) rest

/-- `_validate_individual_devices`: returns `(valid_devices,
validation_errors)`, or the exception the loop raises. -/
def validateIndividualDevices (devices : List Device) :
    Except PyExc (List Device × List String) :=
  validateLoop false 0 [] [] devices

/-! ## Filter engine (`_apply_filters`, lines 313-338) -/

/-- The four inclusion axes of the `filters` option (§3 of the spec);
element type is `PyVal` because membership uses Python `==`. -/
structure Filters where
  device_types : List PyVal := []
  vendors : List PyVal := []
  locations : List PyVal := []
  os_families : List PyVal := []

/-- `_apply_filters`.  The source's early `if not filters: return True`
(empty dict) coincides with all four axes being empty below, since each
axis then imposes no constraint. -/
def applyFilters (device : Device) (filters : Filters) : Bool :=
  if !filters.device_types.isEmpty && !pyIn (pyGet device "device_type") filters.device_types then
    false
  else if !filters.vendors.isEmpty && !pyIn (pyGet device "vendor") filters.vendors then
    false
  else if !filters.locations.isEmpty && !pyIn (pyGet device "location") filters.locations then
    false
  else if !filters.os_families.isEmpty && !pyIn (pyGet device "os_family") filters.os_families then
    false
  else true

/-! ## Safety gate (`_validate_incremental_safety`, lines 340-354) -/

/-- The `safety_mode` option with its documented defaults. -/
structure SafetyConfig where
  allow_deletions : Bool := false
  preserve_existing_groups : Bool := true
  max_devices_per_sync : Int := 100
  deriving DecidableEq

/-- The deletion-intent loop: raise at the first record with
`_state == 'absent'`. -/
def deletionScan : List Device → Except PyExc Unit
  | [] => .ok ()
  | d :: rest =>
    if pyEq (pyGet d "_state") (.vStr "absent") then
      .error (.ansibleError ("Device deletion not allowed in safety mode: " ++
        pyFStr (pyGet d "name")))
    else deletionScan rest

/-- The deletion check of the gate (lines 347-354): skipped entirely when
`allow_deletions` is true. -/
def checkDeletions (devices : List Device) (cfg : SafetyConfig) : Except PyExc Unit :=
  if cfg.allow_deletions then .ok () else deletionScan devices

/-- `_validate_incremental_safety`: size check, then deletion check. -/
def validateIncrementalSafety (devices : List Device) (cfg : SafetyConfig) :
    Except PyExc Unit :=
  if (devices.length : Int) > cfg.max_devices_per_sync then
    .error (.ansibleError ("Incremental sync exceeds maximum devices limit: " ++
      toString devices.length ++ " > " ++ toString cfg.max_devices_per_sync))
  else checkDeletions devices cfg

/-! ## Group mapper (`_create_device_groups`, `_matches_criteria`,
lines 356-385) -/

/-- The `group_mappings` option with its documented defaults; custom
groups map a group name to a field → exact-value criteria dict. -/
structure GroupMappings where
  by_vendor : Bool := true
  by_location : Bool := true
  by_device_type : Bool := true
  by_os_family : Bool := true
  custom_groups : List (String × List (String × PyVal)) := []

/-- `_matches_criteria`: every criterion must hold (`device.get(key) != value`
returns false). -/
def matchesCriteria (device : Device) (criteria : List (String × PyVal)) : Bool :=
  criteria.all (fun kv => pyEq (pyGet device kv.1) kv.2)

/-- `_create_device_groups`: static axes in order vendor, location,
device_type, os_family (each gated by its boolean and field truthiness),
then custom groups in configuration order. -/
def createDeviceGroups (device : Device) (gm : GroupMappings) : List String :=
  (if gm.by_vendor && pyTruthy (pyGet device "vendor") then
    ["vendor_" ++ pyFStr (pyGet device "vendor")] else [])
  ++ (if gm.by_location && pyTruthy (pyGet device "location") then
    ["location_" ++ pyFStr (pyGet device "location")] else [])
  ++ (if gm.by_device_type && pyTruthy (pyGet device "device_type") then
    ["type_" ++ pyFStr (pyGet device "device_type")] else [])
  ++ (if gm.by_os_family && pyTruthy (pyGet device "os_family") then
    ["os_" ++ pyFStr (pyGet device "os_family")] else [])
  ++ gm.custom_groups.filterMap (fun g =>
    if matchesCriteria device g.2 then some g.1 else none)

/-! ## Inventory tree and merger (`_add_device_to_inventory`,
`_ensure_group_exists`, lines 387-450) -/

/-- Modelled from the spec: the inventory collaborator of §6, which lives in
the Ansible framework and not under src/ — a host/group tree exposing
add host (idempotent), add group (idempotent), add child (idempotent) and
set variable (last-write-wins).  Hosts map to their variable dict, groups to
their ordered child-host list; host names are modelled as strings (every
record the merge claims range over carries a string name). -/
structure Inventory where
  hostVars : List (String × List (String × PyVal))
  groupChildren : List (String × List String)

def Inventory.hosts (inv : Inventory) : List String := assocKeys inv.hostVars

def Inventory.groups (inv : Inventory) : List String := assocKeys inv.groupChildren

/-- Modelled from the spec: `inventory.add_host` — idempotent host creation. -/
def addHost (h : String) (inv : Inventory) : Inventory :=
  if assocHasKey inv.hostVars h then inv
  else { inv with hostVars := inv.hostVars ++ [(h, [])] }

/-- `_ensure_group_exists`: add the group only when missing
(`inventory.add_group` modelled from the spec as idempotent creation). -/
def ensureGroupExists (g : String) (inv : Inventory) : Inventory :=
  if assocHasKey inv.groupChildren g then inv
  else { inv with groupChildren := inv.groupChildren ++ [(g, [])] }

/-- Modelled from the spec: `inventory.add_child group host` — adding an
existing child is a no-op. -/
def addChild (g : String) (h : String) (inv : Inventory) : Inventory :=
  { inv with groupChildren :=
      assocMod inv.groupChildren g (fun l => if h ∈ l then l else l ++ [h]) }

/-- Modelled from the spec: `inventory.set_variable host key value` —
last-write-wins on the host's variable dict. -/
def setVariable (h : String) (k : String) (v : PyVal) (inv : Inventory) : Inventory :=
  { inv with hostVars := assocMod inv.hostVars h (fun a => assocSet a k v) }

/-- `v is None`. -/
def isNone : PyVal → Bool
  | .vNone => true
  | _ => false

/-- The entries of the `host_vars` dict literal before `sync_mode`
(lines 406-421): connection parameters and device metadata. -/
def hostVarsPre (device : Device) : List (String × PyVal) := [
  ("ansible_host", pyGetD device "mgmt_ip" (pyGet device "ansible_host")),
  ("ansible_port", pyGetD device "ssh_port" (pyGetD device "ansible_port" (.vInt 22))),
  ("ansible_user", pyGetD device "ssh_user" (pyGetD device "ansible_user" (.vStr "admin"))),
  ("ansible_password", pyGetD device "ssh_password" (pyGet device "ansible_password")),
  ("ansible_network_os", pyGetD device "os_family" (pyGet device "ansible_network_os")),
  ("ansible_connection", .vStr "network_cli"),
  ("ansible_ssh_common_args", .vStr "-o StrictHostKeyChecking=no"),
  ("device_type", pyGet device "device_type"),
  ("vendor", pyGet device "vendor"),
  ("location", pyGet device "location"),
  ("os_family", pyGet device "os_family"),
  ("model", pyGet device "model"),
  ("serial_number", pyGet device "serial_number"),
  ("mgmt_ip", pyGet device "mgmt_ip")]

/-- The entries of the `host_vars` dict literal after `sync_mode`
(lines 425-426). -/
def hostVarsPost (device : Device) : List (String × PyVal) := [
  ("last_updated", pyGet device "last_updated"),
  ("source", .vStr "cmdb_orchestration")]

/-- The `custom_*` items of the device, in iteration order (lines 430-431). -/
def customItems (device : Device) : List (String × PyVal) :=
  device.filter (fun kv => pyStartsWith kv.1 "custom_")

/-- The `host_vars` dict of `_add_device_to_inventory` (lines 405-432):
the dict literal (pre-`sync_mode` entries, the `sync_mode` entry, which is
`'incremental'` on a new host and `'updated'` on an existing one, and the
post entries) followed by dict assignment of every `custom_*` field. -/
def hostVarsDict (device : Device) (hostExists : Bool) : List (String × PyVal) :=
  foldAssocSet
    (hostVarsPre device ++
      [("sync_mode", .vStr (if !hostExists then "incremental" else "updated"))] ++
      hostVarsPost device)
    (customItems device)

/-- The items of `host_vars` actually written (the `is not None` guard of
lines 435-437), in iteration order. -/
def hostVarsItems (device : Device) (hostExists : Bool) : List (String × PyVal) :=
  (hostVarsDict device hostExists).filter (fun kv => !isNone kv.2)

/-- The written items preceding `sync_mode` (independent of host
existence). -/
def hostVarsItemsPre (device : Device) : List (String × PyVal) :=
  (hostVarsPre device).filter (fun kv => !isNone kv.2)

/-- The written items following `sync_mode` (independent of host
existence). -/
def hostVarsItemsPost (device : Device) : List (String × PyVal) :=
  (foldAssocSet (hostVarsPost device) (customItems device)).filter (fun kv => !isNone kv.2)

/-- One step of the group-assignment loop (lines 442-444):
`_ensure_group_exists` then `add_child`. -/
def groupStep (h g : String) (inv : Inventory) : Inventory :=
  addChild g h (ensureGroupExists g inv)

/-- `_add_device_to_inventory`: upsert one device.  Returns the new tree and
the verbose log lines (the only place `preserve_existing` is read).  A
missing `name` key raises KeyError at `device['name']`. -/
def addDeviceToInventory (device : Device) (gm : GroupMappings)
    (preserveExisting : Bool) (inv : Inventory) : Except PyExc (Inventory × List String) :=
  match assocFind? device "name" with
  | none => .error (.keyError "name")
  | some (.vStr hostname) =>
    let hostExists := assocHasKey inv.hostVars hostname
    let logs := if hostExists && preserveExisting then
        ["Host " ++ hostname ++ " already exists, updating variables only"]
      else []
    let inv := addHost hostname inv
    let inv := (hostVarsItems device hostExists).foldl
      (fun i kv => setVariable hostname kv.1 kv.2 i) inv
    let inv := (createDeviceGroups device gm).foldl
      (fun i g => groupStep hostname g i) inv
    let inv := groupStep hostname "network" inv
    let logs := logs ++ ["Processed device: " ++ hostname ++ " in mode: " ++
      (if hostExists then "update" else "add")]
    .ok (inv, logs)
  | some _ => .error (.typeError "host name is modelled as a string")

/-- The merged tree: the inventory component of the upsert, the starting
tree when the upsert raises (it raises before any mutation). -/
def mergedInv (device : Device) (gm : GroupMappings) (preserveExisting : Bool)
    (inv : Inventory) : Inventory :=
  match addDeviceToInventory device gm preserveExisting inv with
  | .ok (i, _) => i
  | .error _ => inv

/-! ## The parse pipeline (`parse`, lines 452-560) -/

/-- The `sync_mode` option. -/
inductive SyncMode where
  | full_sync
  | incremental
  deriving DecidableEq

/-- The `sync_metadata` record (lines 551-560).  `sync_timestamp` is wall
clock and is omitted; the record is returned with the tree (the source
attaches it as a variable of the implicit `all` group, which is outside the
host/group-children tree modelled here). -/
structure SyncMeta where
  sync_mode : String
  processed_devices : Nat
  skipped_devices : Nat
  deletions_allowed : Bool
  preserve_existing : Bool
  deriving DecidableEq

/-- The per-device processing loop of `parse` (lines 524-545): skip on
missing/falsy name, skip on filter mismatch, count a merge exception as
skipped, otherwise merge and count as processed. -/
def processDevices (filters : Filters) (gm : GroupMappings) (cfg : SafetyConfig) :
    List Device → Inventory → Nat → Nat → Inventory × Nat × Nat
  | [], inv, p, s => (inv, p, s)
  | d :: rest, inv, p, s =>
    if !pyTruthy (pyGet d "name") then processDevices filters gm cfg rest inv p (s + 1)
    else if !applyFilters d filters then processDevices filters gm cfg rest inv p (s + 1)
    else
      match addDeviceToInventory d gm cfg.preserve_existing_groups inv with
      | .ok (inv', _) => processDevices filters gm cfg rest inv' (p + 1) s
      | .error _ => processDevices filters gm cfg rest inv p (s + 1)

/-- The tail of `parse` shared by both modes: processing loop plus sync
metadata. -/
def finishRun (modeStr : String) (ds : List Device) (filters : Filters)
    (gm : GroupMappings) (cfg : SafetyConfig) (inv : Inventory) : Inventory × SyncMeta :=
  let r := processDevices filters gm cfg ds inv 0 0
  (r.1, { sync_mode := modeStr, processed_devices := r.2.1, skipped_devices := r.2.2,
          deletions_allowed := cfg.allow_deletions,
          preserve_existing := cfg.preserve_existing_groups })

/-- `_validate_device_data` against the inline fallback schema
(lines 189-207), with the jsonschema library available: every element of
the devices array must have the four required keys present; the envelope
(`orchestration_data` containing `devices`) holds by construction here
because `parse` builds it around the device list itself. -/
def schemaRequiredOk (devices : List Device) : Bool :=
  devices.all (fun d => requiredFields.all (fun k => assocHasKey d k))

/-- `parse`, taking the already-fetched (full sync) or already-supplied
(incremental) device list.  Full sync goes straight to processing;
incremental runs schema validation, field validation (fatal only when no
record survives), then the safety gate, before the same processing tail. -/
def parseRun (mode : SyncMode) (devices : List Device) (filters : Filters)
    (gm : GroupMappings) (cfg : SafetyConfig) (inv : Inventory) :
    Except PyExc (Inventory × SyncMeta) :=
  match mode with
  | .full_sync => .ok (finishRun "full_sync" devices filters gm cfg inv)
  | .incremental =>
    if !schemaRequiredOk devices then
      .error (.ansibleError "Device data schema validation failed")
    else
      match validateIndividualDevices devices with
      | .error e => .error e
      | .ok (valid, derrs) =>
        if !derrs.isEmpty && valid.length == 0 then
          .error (.ansibleError ("Device validation failed:\n" ++
            String.intercalate "\n" derrs))
        else
          let ds := if !derrs.isEmpty then valid else devices
          match validateIncrementalSafety ds cfg with
          | .error e => .error e
          | .ok _ => .ok (finishRun "incremental" ds filters gm cfg inv)

/-! ## Statement helpers and concrete inputs -/

/-- The child-host list of a group (empty when the group is absent). -/
def childrenOfGroup (inv : Inventory) (g : String) : List String :=
  (assocFind? inv.groupChildren g).getD []

/-- All groups that contain a host, in tree order. -/
def groupsOf (inv : Inventory) (h : String) : List String :=
  (inv.groupChildren.filter (fun e => h ∈ e.2)).map (·.1)

/-- Group-membership predicate on a group-children map: group `g` exists
and lists host `h` as a child. -/
def gcMem (m : List (String × List String)) (g h : String) : Prop :=
  ∃ l, assocFind? m g = some l ∧ h ∈ l

/-- The string value of a host's `sync_mode` variable (empty when unset). -/
def syncModeVar (inv : Inventory) (h : String) : String :=
  match assocFind? inv.hostVars h with
  | some a =>
    match assocFind? a "sync_mode" with
    | some (.vStr s) => s
    | _ => ""
  | none => ""

/-- Well-formedness the real collaborator maintains: each host's variable
dict has no duplicate keys. -/
def InvVarsWF (inv : Inventory) : Prop :=
  ∀ e ∈ inv.hostVars, (assocKeys e.2).Nodup

/-- The independent per-record verdict: the record produces no validation
error (evaluated with the `re` module bound, the state in which no
exception can mask the verdict). -/
def devicePasses (d : Device) : Bool :=
  match validateDevice true d with
  | .ok (_, []) => true
  | _ => false

/-- The aggregated error line an invalid record contributes at position
`i`, `none` for a passing record. -/
def deviceFailMsg? (i : Nat) (d : Device) : Option String :=
  match validateDevice true d with
  | .ok (_, []) => none
  | .ok (_, errs) => some (deviceErrorLine i d errs)
  | .error _ => none

/-- The empty inventory tree. -/
def invEmpty : Inventory := ⟨[], []⟩

/-- A fully valid device record. -/
def sampleDevice : Device :=
  [("name", .vStr "rtr-01"), ("device_type", .vStr "router"),
   ("vendor", .vStr "cisco"), ("mgmt_ip", .vStr "10.0.0.1")]

/-- A record whose `name` is an `int`: the length check notes the error,
then `re.match` raises `TypeError`. -/
def badNameDevice : Device :=
  [("name", .vInt 5), ("device_type", .vStr "router"),
   ("vendor", .vStr "cisco"), ("mgmt_ip", .vStr "10.0.0.1")]

/-- A record failing only the vendor enumeration. -/
def badVendorDevice : Device :=
  [("name", .vStr "rtr-02"), ("device_type", .vStr "router"),
   ("vendor", .vStr "hp"), ("mgmt_ip", .vStr "10.0.0.2")]

/-- The group-derivation scenario device of the spec (§8). -/
def c9Device : Device :=
  [("name", .vStr "rtr-01"), ("vendor", .vStr "cisco"), ("location", .vStr "dc1"),
   ("device_type", .vStr "router"), ("os_family", .vStr "ios"),
   ("mgmt_ip", .vStr "10.0.0.1")]

/-- A safety config with a batch cap of one device. -/
def cfgMax1 : SafetyConfig := { max_devices_per_sync := 1 }

/-- A record carrying a deletion request. -/
def deleteDevice : Device := [("name", .vStr "rtr-09"), ("_state", .vStr "absent")]

/-! ## Association-list lemmas -/

theorem assocFind?_assocMod_self {α : Type} (m : List (String × α)) (k : String)
    (f : α → α) : assocFind? (assocMod m k f) k = (assocFind? m k).map f := by
  induction m with
  | nil => rfl
  | cons kv t ih =>
    obtain ⟨k', v'⟩ := kv
    by_cases h : k' = k <;> simp [assocMod, assocFind?, h, ih]

theorem assocFind?_assocMod_ne {α : Type} (m : List (String × α)) (k k' : String)
    (f : α → α) (h : k' ≠ k) : assocFind? (assocMod m k f) k' = assocFind? m k' := by
  induction m with
  | nil => rfl
  | cons kv t ih =>
    obtain ⟨k₀, v₀⟩ := kv
    by_cases h0 : k₀ = k
    · subst h0
      have hk : ¬ k₀ = k' := fun hh => h hh.symm
      simp [assocMod, assocFind?, hk]
    · by_cases h1 : k₀ = k' <;> simp [assocMod, assocFind?, h0, h1, h, ih]

theorem assocFind?_assocSet_self {α : Type} (m : List (String × α)) (k : String)
    (v : α) : assocFind? (assocSet m k v) k = some v := by
  induction m with
  | nil => simp [assocSet, assocFind?]
  | cons kv t ih =>
    obtain ⟨k', v'⟩ := kv
    by_cases h : k' = k <;> simp [assocSet, assocFind?, h, ih]

theorem assocFind?_assocSet_ne {α : Type} (m : List (String × α)) (k k' : String)
    (v : α) (h : k' ≠ k) : assocFind? (assocSet m k v) k' = assocFind? m k' := by
  have hk : ¬ k = k' := fun hh => h hh.symm
  induction m with
  | nil => simp [assocSet, assocFind?, hk]
  | cons kv t ih =>
    obtain ⟨k₀, v₀⟩ := kv
    by_cases h0 : k₀ = k
    · subst h0
      simp [assocSet, assocFind?, hk]
    · by_cases h1 : k₀ = k' <;> simp [assocSet, assocFind?, h0, h1, h, hk, ih]

theorem assocFind?_append_left {α : Type} (m n : List (String × α)) (k : String)
    (v : α) (h : assocFind? m k = some v) : assocFind? (m ++ n) k = some v := by
  induction m with
  | nil => simp [assocFind?] at h
  | cons kv t ih =>
    obtain ⟨k', v'⟩ := kv
    by_cases h0 : k' = k <;> simp [assocFind?, h0] at h ⊢ <;> simp_all [ih]

theorem assocFind?_append_right {α : Type} (m n : List (String × α)) (k : String)
    (h : assocFind? m k = none) : assocFind? (m ++ n) k = assocFind? n k := by
  induction m with
  | nil => rfl
  | cons kv t ih =>
    obtain ⟨k', v'⟩ := kv
    by_cases h0 : k' = k <;> simp [assocFind?, h0] at h ⊢ <;> simp_all [ih]

theorem assocSet_same {α : Type} (m : List (String × α)) (k : String) (v : α)
    (h : assocFind? m k = some v) : assocSet m k v = m := by
  induction m with
  | nil => simp [assocFind?] at h
  | cons kv t ih =>
    obtain ⟨k', v'⟩ := kv
    by_cases h0 : k' = k <;> simp [assocFind?, h0] at h <;> simp [assocSet, h0]
    · exact h.symm
    · exact ih h

theorem assocMod_of_found {α : Type} (m : List (String × α)) (k : String)
    (f : α → α) (a : α) (h : assocFind? m k = some a) (hf : f a = a) :
    assocMod m k f = m := by
  induction m with
  | nil => simp [assocFind?] at h
  | cons kv t ih =>
    obtain ⟨k', v'⟩ := kv
    by_cases h0 : k' = k <;> simp [assocFind?, h0] at h <;> simp [assocMod, h0]
    · rw [h, hf]
    · exact ih h

theorem assocMod_congr {α : Type} (m : List (String × α)) (k : String)
    (f g : α → α) (a : α) (h : assocFind? m k = some a) (hfg : f a = g a) :
    assocMod m k f = assocMod m k g := by
  induction m with
  | nil => rfl
  | cons kv t ih =>
    obtain ⟨k', v'⟩ := kv
    by_cases h0 : k' = k <;> simp [assocFind?, h0] at h <;> simp [assocMod, h0]
    · rw [h, hfg]
    · exact ih h

theorem assocMod_comp {α : Type} (m : List (String × α)) (k : String)
    (f g : α → α) : assocMod (assocMod m k f) k g = assocMod m k (fun a => g (f a)) := by
  induction m with
  | nil => rfl
  | cons kv t ih =>
    obtain ⟨k', v'⟩ := kv
    by_cases h0 : k' = k <;> simp [assocMod, h0, ih]

theorem assocKeys_assocMod {α : Type} (m : List (String × α)) (k : String)
    (f : α → α) : assocKeys (assocMod m k f) = assocKeys m := by
  induction m with
  | nil => rfl
  | cons kv t ih =>
    obtain ⟨k', v'⟩ := kv
    by_cases h0 : k' = k <;> simp [assocMod, assocKeys, h0] <;> simpa [assocKeys] using ih

theorem assocFind?_mem {α : Type} (m : List (String × α)) (k : String) (v : α)
    (h : assocFind? m k = some v) : (k, v) ∈ m := by
  induction m with
  | nil => simp [assocFind?] at h
  | cons kv t ih =>
    obtain ⟨k', v'⟩ := kv
    by_cases h0 : k' = k <;> simp [assocFind?, h0] at h
    · subst h0; simp [h.symm]
    · simp [ih h]

theorem assocKeys_cons {α : Type} (kv : String × α) (t : List (String × α)) :
    assocKeys (kv :: t) = kv.1 :: assocKeys t := rfl

theorem assocKeys_append {α : Type} (m n : List (String × α)) :
    assocKeys (m ++ n) = assocKeys m ++ assocKeys n := by
  simp [assocKeys]

theorem assocHasKey_iff_mem {α : Type} (m : List (String × α)) (k : String) :
    assocHasKey m k = true ↔ k ∈ assocKeys m := by
  induction m with
  | nil => simp [assocHasKey, assocFind?, assocKeys]
  | cons kv t ih =>
    obtain ⟨k', v'⟩ := kv
    by_cases h0 : k' = k
    · subst h0; simp [assocHasKey, assocFind?, assocKeys_cons]
    · have h1 : ¬ k = k' := fun hh => h0 hh.symm
      simp only [assocHasKey, assocFind?, h0, if_false, assocKeys_cons, List.mem_cons]
      rw [← assocHasKey]
      simp [ih, h1]

theorem mem_assocKeys_assocSet {α : Type} (m : List (String × α)) (k k' : String)
    (v : α) : k' ∈ assocKeys (assocSet m k v) ↔ k' ∈ assocKeys m ∨ k' = k := by
  induction m with
  | nil => simp [assocSet, assocKeys]
  | cons kv t ih =>
    obtain ⟨k₀, v₀⟩ := kv
    by_cases h0 : k₀ = k
    · subst h0
      simp [assocSet, assocKeys_cons]
      tauto
    · simp only [assocSet, h0, if_false, assocKeys_cons, List.mem_cons]
      rw [ih]
      tauto

theorem assocKeys_assocSet_of_mem {α : Type} (m : List (String × α)) (k : String)
    (v : α) (h : k ∈ assocKeys m) : assocKeys (assocSet m k v) = assocKeys m := by
  induction m with
  | nil => simp [assocKeys] at h
  | cons kv t ih =>
    obtain ⟨k₀, v₀⟩ := kv
    by_cases h0 : k₀ = k
    · simp [assocSet, assocKeys_cons, h0]
    · simp only [assocKeys_cons, List.mem_cons] at h
      rcases h with h | h
      · exact absurd h.symm h0
      · simp [assocSet, assocKeys_cons, h0, ih h]

theorem assocFind?_eq_none_of_not_mem {α : Type} (m : List (String × α)) (k : String)
    (h : k ∉ assocKeys m) : assocFind? m k = none := by
  induction m with
  | nil => rfl
  | cons kv t ih =>
    obtain ⟨k', v'⟩ := kv
    simp only [assocKeys_cons, List.mem_cons] at h
    push_neg at h
    have h0 : ¬ k' = k := fun hh => h.1 hh.symm
    simp [assocFind?, h0, ih h.2]

theorem optFirst_none {α : Type} (b : Option α) : optFirst none b = b := rfl

theorem optFirst_assoc {α : Type} (a b c : Option α) :
    optFirst (optFirst a b) c = optFirst a (optFirst b c) := by
  cases a <;> cases b <;> rfl

theorem lastVal_cons {α : Type} (kv : String × α) (t : List (String × α)) (k : String) :
    lastVal (kv :: t) k = optFirst (lastVal t k) (if kv.1 = k then some kv.2 else none) := by
  cases h : lastVal t k <;> simp [lastVal, h, optFirst]

theorem lastVal_append {α : Type} (xs ys : List (String × α)) (k : String) :
    lastVal (xs ++ ys) k = optFirst (lastVal ys k) (lastVal xs k) := by
  induction xs with
  | nil => cases h : lastVal ys k <;> simp [lastVal, optFirst, h]
  | cons kv t ih =>
    rw [List.cons_append, lastVal_cons, ih, lastVal_cons, optFirst_assoc]

theorem lastVal_eq_none_of_not_mem {α : Type} (ps : List (String × α)) (k : String)
    (h : k ∉ assocKeys ps) : lastVal ps k = none := by
  induction ps with
  | nil => rfl
  | cons kv t ih =>
    simp only [assocKeys_cons, List.mem_cons] at h
    push_neg at h
    have h0 : ¬ kv.1 = k := fun hh => h.1 hh.symm
    rw [lastVal_cons, ih h.2, if_neg h0]
    rfl

theorem foldAssocSet_nil {α : Type} (m : List (String × α)) :
    foldAssocSet m [] = m := rfl

theorem foldAssocSet_cons {α : Type} (m : List (String × α)) (kv : String × α)
    (ps : List (String × α)) :
    foldAssocSet m (kv :: ps) = foldAssocSet (assocSet m kv.1 kv.2) ps := rfl

theorem assocFind?_foldAssocSet {α : Type} (ps m : List (String × α)) (k : String) :
    assocFind? (foldAssocSet m ps) k = optFirst (lastVal ps k) (assocFind? m k) := by
  induction ps generalizing m with
  | nil => rfl
  | cons kv t ih =>
    rw [foldAssocSet_cons, ih, lastVal_cons]
    cases h : lastVal t k with
    | some v => rfl
    | none =>
      simp only [optFirst]
      by_cases h0 : kv.1 = k
      · subst h0
        simp [assocFind?_assocSet_self, optFirst]
      · have h1 : k ≠ kv.1 := fun hh => h0 hh.symm
        simp [assocFind?_assocSet_ne _ _ _ _ h1, optFirst, h0]

theorem mem_assocKeys_foldAssocSet {α : Type} (ps m : List (String × α)) (k : String) :
    k ∈ assocKeys (foldAssocSet m ps) ↔ k ∈ assocKeys m ∨ k ∈ assocKeys ps := by
  induction ps generalizing m with
  | nil => simp [foldAssocSet, assocKeys]
  | cons kv t ih =>
    rw [foldAssocSet_cons, ih, mem_assocKeys_assocSet, assocKeys_cons, List.mem_cons]
    tauto

theorem assocKeys_foldAssocSet_of_subset {α : Type} (ps m : List (String × α))
    (h : ∀ k ∈ assocKeys ps, k ∈ assocKeys m) :
    assocKeys (foldAssocSet m ps) = assocKeys m := by
  induction ps generalizing m with
  | nil => rfl
  | cons kv t ih =>
    rw [foldAssocSet_cons]
    have hk : kv.1 ∈ assocKeys m := h kv.1 (by simp [assocKeys_cons])
    have heq := assocKeys_assocSet_of_mem m kv.1 kv.2 hk
    rw [ih _ (fun k hkmem => by
      rw [mem_assocKeys_assocSet]
      exact Or.inl (h k (by simp [assocKeys_cons, hkmem])))]
    exact heq

theorem nodup_assocKeys_assocSet {α : Type} (m : List (String × α)) (k : String)
    (v : α) (h : (assocKeys m).Nodup) : (assocKeys (assocSet m k v)).Nodup := by
  induction m with
  | nil => simp [assocSet, assocKeys]
  | cons kv t ih =>
    obtain ⟨k₀, v₀⟩ := kv
    rw [assocKeys_cons, List.nodup_cons] at h
    by_cases h0 : k₀ = k
    · subst h0
      simp only [assocSet, if_true, eq_self_iff_true, assocKeys_cons, List.nodup_cons]
      exact ⟨h.1, h.2⟩
    · simp only [assocSet, h0, if_false, assocKeys_cons, List.nodup_cons]
      refine ⟨fun hmem => ?_, ih h.2⟩
      rw [mem_assocKeys_assocSet] at hmem
      rcases hmem with hmem | hmem
      · exact h.1 hmem
      · exact h0 hmem

theorem nodup_assocKeys_foldAssocSet {α : Type} (ps m : List (String × α))
    (h : (assocKeys m).Nodup) : (assocKeys (foldAssocSet m ps)).Nodup := by
  induction ps generalizing m with
  | nil => exact h
  | cons kv t ih => exact ih _ (nodup_assocKeys_assocSet m kv.1 kv.2 h)

theorem assoc_ext {α : Type} (m₁ m₂ : List (String × α))
    (hnd : (assocKeys m₁).Nodup) (hk : assocKeys m₁ = assocKeys m₂)
    (hl : ∀ k, assocFind? m₁ k = assocFind? m₂ k) : m₁ = m₂ := by
  induction m₁ generalizing m₂ with
  | nil =>
    cases m₂ with
    | nil => rfl
    | cons kv t => simp [assocKeys] at hk
  | cons kv t ih =>
    obtain ⟨k, v⟩ := kv
    cases m₂ with
    | nil => simp [assocKeys] at hk
    | cons kv₂ t₂ =>
      obtain ⟨k₂, v₂⟩ := kv₂
      rw [assocKeys_cons, assocKeys_cons] at hk
      have hkk : k = k₂ := by injection hk
      have hkt : assocKeys t = assocKeys t₂ := by injection hk
      subst hkk
      have hv : v = v₂ := by
        have := hl k
        simp [assocFind?] at this
        exact this
      subst hv
      rw [assocKeys_cons, List.nodup_cons] at hnd
      refine congrArg _ (ih t₂ hnd.2 hkt (fun k' => ?_))
      by_cases h0 : k' = k
      · subst h0
        rw [assocFind?_eq_none_of_not_mem t k' hnd.1,
          assocFind?_eq_none_of_not_mem t₂ k' (hkt ▸ hnd.1)]
      · have := hl k'
        have h1 : ¬ k = k' := fun hh => h0 hh.symm
        simpa [assocFind?, h1] using this

theorem assocMod_ident {α : Type} (m : List (String × α)) (k : String) :
    assocMod m k (fun a => a) = m := by
  induction m with
  | nil => rfl
  | cons kv t ih =>
    obtain ⟨k', v'⟩ := kv
    by_cases h0 : k' = k <;> simp [assocMod, h0, ih]

theorem assocSet_append_of_not_mem {α : Type} (m₁ m₂ : List (String × α))
    (k : String) (v : α) (h : k ∉ assocKeys m₁) :
    assocSet (m₁ ++ m₂) k v = m₁ ++ assocSet m₂ k v := by
  induction m₁ with
  | nil => rfl
  | cons kv t ih =>
    simp only [assocKeys_cons, List.mem_cons] at h
    push_neg at h
    have h0 : ¬ kv.1 = k := fun hh => h.1 hh.symm
    simp [assocSet, h0, ih h.2]

theorem foldAssocSet_append_of_disjoint {α : Type} (cs m₁ m₂ : List (String × α))
    (h : ∀ kv ∈ cs, kv.1 ∉ assocKeys m₁) :
    foldAssocSet (m₁ ++ m₂) cs = m₁ ++ foldAssocSet m₂ cs := by
  induction cs generalizing m₂ with
  | nil => rfl
  | cons kv t ih =>
    rw [foldAssocSet_cons, assocSet_append_of_not_mem _ _ _ _ (h kv (by simp)),
      ih _ (fun kv' hm => h kv' (by simp [hm])), foldAssocSet_cons]

theorem assocKeys_filter_subset {α : Type} (p : String × α → Bool)
    (m : List (String × α)) (k : String) (h : k ∈ assocKeys (m.filter p)) :
    k ∈ assocKeys m := by
  simp only [assocKeys, List.mem_map] at h ⊢
  obtain ⟨kv, hkv, hk⟩ := h
  exact ⟨kv, List.mem_of_mem_filter hkv, hk⟩

/-! ## Inventory-operation lemmas -/

theorem setVariable_groupChildren (h k : String) (v : PyVal) (inv : Inventory) :
    (setVariable h k v inv).groupChildren = inv.groupChildren := rfl

theorem addHost_groupChildren (h : String) (inv : Inventory) :
    (addHost h inv).groupChildren = inv.groupChildren := by
  unfold addHost
  split <;> rfl

theorem groupStep_hostVars (h g : String) (inv : Inventory) :
    (groupStep h g inv).hostVars = inv.hostVars := by
  unfold groupStep addChild ensureGroupExists
  split <;> rfl

theorem groupFold_hostVars (gs : List String) (h : String) (inv : Inventory) :
    (gs.foldl (fun i g => groupStep h g i) inv).hostVars = inv.hostVars := by
  induction gs generalizing inv with
  | nil => rfl
  | cons g t ih => rw [List.foldl_cons, ih, groupStep_hostVars]

theorem varPhase_eq (h : String) (ps : List (String × PyVal)) (inv : Inventory) :
    ps.foldl (fun i kv => setVariable h kv.1 kv.2 i) inv
      = ⟨assocMod inv.hostVars h (fun a => foldAssocSet a ps), inv.groupChildren⟩ := by
  induction ps generalizing inv with
  | nil =>
    cases inv with
    | mk hv gc => simp [foldAssocSet_nil, assocMod_ident]
  | cons kv t ih =>
    rw [List.foldl_cons, ih]
    cases inv with
    | mk hv gc =>
      simp only [setVariable, assocMod_comp]
      rfl

theorem ensureGroup_of_found (g : String) (inv : Inventory) (l : List String)
    (h : assocFind? inv.groupChildren g = some l) : ensureGroupExists g inv = inv := by
  simp [ensureGroupExists, assocHasKey, h]

theorem groupStep_mem_self (h g : String) (inv : Inventory) :
    gcMem (groupStep h g inv).groupChildren g h := by
  unfold groupStep
  cases hfind : assocFind? inv.groupChildren g with
  | some l =>
    rw [ensureGroup_of_found g inv l hfind]
    refine ⟨if h ∈ l then l else l ++ [h], ?_, ?_⟩
    · rw [show (addChild g h inv).groupChildren
          = assocMod inv.groupChildren g (fun l => if h ∈ l then l else l ++ [h]) from rfl,
        assocFind?_assocMod_self, hfind]
      rfl
    · split <;> simp_all
  | none =>
    have hens : ensureGroupExists g inv
        = { inv with groupChildren := inv.groupChildren ++ [(g, [])] } := by
      simp [ensureGroupExists, assocHasKey, hfind]
    rw [hens]
    have hfind2 : assocFind? (inv.groupChildren ++ [(g, [])]) g = some [] := by
      rw [assocFind?_append_right _ _ _ hfind]
      simp [assocFind?]
    refine ⟨[h], ?_, by simp⟩
    rw [show (addChild g h { inv with groupChildren := inv.groupChildren ++ [(g, [])] }).groupChildren
        = assocMod (inv.groupChildren ++ [(g, [])]) g (fun l => if h ∈ l then l else l ++ [h]) from rfl,
      assocFind?_assocMod_self, hfind2]
    rfl

theorem gcMem_ensure (g' g h : String) (inv : Inventory)
    (hm : gcMem inv.groupChildren g h) :
    gcMem (ensureGroupExists g' inv).groupChildren g h := by
  obtain ⟨l, hfind, hmem⟩ := hm
  unfold ensureGroupExists
  split
  · exact ⟨l, hfind, hmem⟩
  · exact ⟨l, assocFind?_append_left _ _ _ _ hfind, hmem⟩

theorem gcMem_addChild (g' h' g h : String) (inv : Inventory)
    (hm : gcMem inv.groupChildren g h) :
    gcMem (addChild g' h' inv).groupChildren g h := by
  obtain ⟨l, hfind, hmem⟩ := hm
  by_cases h0 : g = g'
  · subst h0
    refine ⟨if h' ∈ l then l else l ++ [h'], ?_, ?_⟩
    · rw [show (addChild g h' inv).groupChildren
          = assocMod inv.groupChildren g (fun l => if h' ∈ l then l else l ++ [h']) from rfl,
        assocFind?_assocMod_self, hfind]
      rfl
    · split <;> simp [hmem]
  · refine ⟨l, ?_, hmem⟩
    rw [show (addChild g' h' inv).groupChildren
        = assocMod inv.groupChildren g' (fun l => if h' ∈ l then l else l ++ [h']) from rfl,
      assocFind?_assocMod_ne _ _ _ _ h0]
    exact hfind

theorem gcMem_groupStep (g' h' g h : String) (inv : Inventory)
    (hm : gcMem inv.groupChildren g h) :
    gcMem (groupStep h' g' inv).groupChildren g h :=
  gcMem_addChild g' h' g h _ (gcMem_ensure g' g h inv hm)

theorem gcMem_groupFold (gs : List String) (h' g h : String) (inv : Inventory)
    (hm : gcMem inv.groupChildren g h) :
    gcMem ((gs.foldl (fun i g' => groupStep h' g' i) inv)).groupChildren g h := by
  induction gs generalizing inv with
  | nil => exact hm
  | cons g₀ t ih => exact ih _ (gcMem_groupStep g₀ h' g h inv hm)

theorem groupFold_mem_all (gs : List String) (h : String) (inv : Inventory) :
    ∀ g ∈ gs, gcMem ((gs.foldl (fun i g' => groupStep h g' i) inv)).groupChildren g h := by
  induction gs generalizing inv with
  | nil => intro g hg; simp at hg
  | cons g₀ t ih =>
    intro g hg
    rw [List.foldl_cons]
    rcases List.mem_cons.mp hg with hg | hg
    · subst hg
      exact gcMem_groupFold t h g h _ (groupStep_mem_self h g inv)
    · exact ih _ g hg

theorem groupStep_noop (h g : String) (inv : Inventory)
    (hm : gcMem inv.groupChildren g h) : groupStep h g inv = inv := by
  obtain ⟨l, hfind, hmem⟩ := hm
  unfold groupStep
  rw [ensureGroup_of_found g inv l hfind]
  have : assocMod inv.groupChildren g (fun l => if h ∈ l then l else l ++ [h])
      = inv.groupChildren :=
    assocMod_of_found _ _ _ l hfind (by simp [hmem])
  unfold addChild
  rw [this]

theorem groupFold_noop (gs : List String) (h : String) (inv : Inventory)
    (hm : ∀ g ∈ gs, gcMem inv.groupChildren g h) :
    gs.foldl (fun i g' => groupStep h g' i) inv = inv := by
  induction gs with
  | nil => rfl
  | cons g₀ t ih =>
    rw [List.foldl_cons, groupStep_noop h g₀ inv (hm g₀ (by simp)),
      ih (fun g hg => hm g (by simp [hg]))]

/-! ## Pipeline lemmas -/

theorem gate_size_error (devices : List Device) (cfg : SafetyConfig)
    (h : (devices.length : Int) > cfg.max_devices_per_sync) :
    validateIncrementalSafety devices cfg = .error (.ansibleError
      ("Incremental sync exceeds maximum devices limit: " ++
        toString devices.length ++ " > " ++ toString cfg.max_devices_per_sync)) := by
  unfold validateIncrementalSafety
  rw [if_pos h]

theorem gate_size_ok (devices : List Device) (cfg : SafetyConfig)
    (h : ¬ ((devices.length : Int) > cfg.max_devices_per_sync)) :
    validateIncrementalSafety devices cfg = checkDeletions devices cfg := by
  unfold validateIncrementalSafety
  rw [if_neg h]

theorem deletionScan_eq_find (devices : List Device) :
    deletionScan devices =
      match devices.find? (fun d => pyEq (pyGet d "_state") (.vStr "absent")) with
      | some d₀ => .error (.ansibleError
          ("Device deletion not allowed in safety mode: " ++ pyFStr (pyGet d₀ "name")))
      | none => .ok () := by
  induction devices with
  | nil => rfl
  | cons d t ih =>
    by_cases h : pyEq (pyGet d "_state") (.vStr "absent") = true
    · simp [deletionScan, List.find?, h]
    · simp only [Bool.not_eq_true] at h
      simp [deletionScan, List.find?, h, ih]

theorem mem_children_of_gcMem (inv : Inventory) (g h : String)
    (hm : gcMem inv.groupChildren g h) : h ∈ childrenOfGroup inv g := by
  obtain ⟨l, hf, hmem⟩ := hm
  unfold childrenOfGroup
  rw [hf]
  exact hmem

theorem merge_network_mem (device : Device) (gm : GroupMappings) (p : Bool)
    (inv : Inventory) (s : String)
    (hname : assocFind? device "name" = some (.vStr s)) :
    s ∈ childrenOfGroup (mergedInv device gm p inv) "network" := by
  unfold mergedInv addDeviceToInventory
  rw [hname]
  exact mem_children_of_gcMem _ _ _ (groupStep_mem_self s "network" _)

theorem ite_and_not_helper (a b c : Bool) :
    (if a && !b then false else c) = ((!a || b) && c) := by
  cases a <;> cases b <;> cases c <;> rfl

theorem processDevices_counts (filters : Filters) (gm : GroupMappings)
    (cfg : SafetyConfig) (ds : List Device) (inv : Inventory) (p s : Nat) :
    (processDevices filters gm cfg ds inv p s).2.1
      + (processDevices filters gm cfg ds inv p s).2.2 = p + s + ds.length := by
  induction ds generalizing inv p s with
  | nil => simp [processDevices]
  | cons d rest ih =>
    unfold processDevices
    split
    · rw [ih]
      simp only [List.length_cons]
      omega
    · split
      · rw [ih]
        simp only [List.length_cons]
        omega
      · split
        · rw [ih]
          simp only [List.length_cons]
          omega
        · rw [ih]
          simp only [List.length_cons]
          omega

theorem validateLoop_ok_shape (ds : List Device) :
    ∀ (r : Bool) (i : Nat) (va : List Device) (ea : List String)
      (v : List Device) (e : List String),
      validateLoop r i va ea ds = .ok (v, e) →
      ∃ v' e', v = va ++ v' ∧ e = ea ++ e' ∧ (e' = [] → v' = ds) := by
  induction ds with
  | nil =>
    intro r i va ea v e h
    simp only [validateLoop, Except.ok.injEq, Prod.mk.injEq] at h
    exact ⟨[], [], by simp [h.1.symm], by simp [h.2.symm], fun _ => rfl⟩
  | cons d rest ih =>
    intro r i va ea v e h
    unfold validateLoop at h
    cases hvd : validateDevice r d with
    | error exc => rw [hvd] at h; exact absurd h (by simp)
    | ok pr =>
      obtain ⟨r', derrs⟩ := pr
      rw [hvd] at h
      by_cases hde : derrs.isEmpty
      · simp only [hde, if_true] at h
        obtain ⟨v₁, e₁, hv₁, he₁, himp⟩ := ih r' (i + 1) (va ++ [d]) ea v e h
        exact ⟨d :: v₁, e₁, by simp [hv₁], he₁,
          fun hnil => by rw [himp hnil]⟩
      · simp only [hde, if_false] at h
        obtain ⟨v₁, e₁, hv₁, he₁, himp⟩ :=
          ih r' (i + 1) va (ea ++ [deviceErrorLine i d derrs]) v e h
        exact ⟨v₁, deviceErrorLine i d derrs :: e₁, hv₁, by simp [he₁],
          fun hnil => by simp at hnil⟩

theorem validate_noerrors_all_valid (devices valid : List Device)
    (h : validateIndividualDevices devices = .ok (valid, [])) : valid = devices := by
  obtain ⟨v', e', hv, he, himp⟩ :=
    validateLoop_ok_shape devices false 0 [] [] valid [] h
  have : e' = [] := by simpa using he.symm
  rw [hv, himp this]
  simp

theorem nameStep_re_mono (r : Bool) (d : Device) (errs : List String)
    (r₁ : Bool) (e₁ : List String) (h : nameStep r d errs = .ok (r₁, e₁)) :
    nameStep true d errs = .ok (true, e₁) := by
  unfold nameStep at h ⊢
  cases hn : assocFind? d "name" with
  | none =>
    rw [hn] at h
    simp only [Except.ok.injEq, Prod.mk.injEq] at h
    rw [h.2]
  | some name =>
    rw [hn] at h
    cases name <;> simp_all

theorem mgmtStep_re_mono (r : Bool) (d : Device) (errs : List String)
    (e₁ : List String) (h : mgmtStep r d errs = .ok e₁) :
    mgmtStep true d errs = .ok e₁ := by
  unfold mgmtStep at h ⊢
  by_cases ht : pyTruthy (pyGet d "mgmt_ip") = true
  · rw [if_pos ht] at h ⊢
    cases hm : pyGet d "mgmt_ip" with
    | vStr s =>
      rw [hm] at h
      by_cases hio : inetAtonOk s = true
      · simp_all
      · simp only [Bool.not_eq_true] at hio
        cases r with
        | false => simp [hio] at h
        | true => simpa [hio] using h
    | vNone => rw [hm] at h; exact absurd h (by simp)
    | vBool b => rw [hm] at h; exact absurd h (by simp)
    | vInt n => rw [hm] at h; exact absurd h (by simp)
    | vList xs => rw [hm] at h; exact absurd h (by simp)
    | vDict kvs => rw [hm] at h; exact absurd h (by simp)
  · rw [if_neg ht] at h ⊢
    exact h

theorem validateDevice_re_mono (r : Bool) (d : Device) (r' : Bool)
    (errs : List String) (h : validateDevice r d = .ok (r', errs)) :
    validateDevice true d = .ok (true, errs) := by
  simp only [validateDevice] at h ⊢
  cases hn : nameStep r d (requiredFields.filterMap (fun f =>
      if !assocHasKey d f || !pyTruthy (pyGet d f) then
        some ("Missing required field: " ++ f) else none)) with
  | error e => rw [hn] at h; exact absurd h (by simp)
  | ok pr =>
    obtain ⟨r₁, e₁⟩ := pr
    rw [hn] at h
    rw [nameStep_re_mono r d _ r₁ e₁ hn]
    simp only at h ⊢
    cases hm : mgmtStep r₁ d _ with
    | error e => rw [hm] at h; exact absurd h (by simp)
    | ok e₂ =>
      rw [hm] at h
      simp only [mgmtStep_re_mono r₁ d _ e₂ hm]
      simp only [Except.ok.injEq, Prod.mk.injEq] at h
      rw [h.2]

theorem validateDevice_verdict (r : Bool) (d : Device) (r' : Bool)
    (derrs : List String) (h : validateDevice r d = .ok (r', derrs)) (i : Nat) :
    (derrs = [] → devicePasses d = true ∧ deviceFailMsg? i d = none) ∧
    (derrs ≠ [] → devicePasses d = false ∧
      deviceFailMsg? i d = some (deviceErrorLine i d derrs)) := by
  have hm := validateDevice_re_mono r d r' derrs h
  unfold devicePasses deviceFailMsg?
  rw [hm]
  cases derrs with
  | nil => exact ⟨fun _ => ⟨rfl, rfl⟩, fun hne => absurd rfl hne⟩
  | cons a t => exact ⟨fun hh => by simp at hh, fun _ => ⟨rfl, rfl⟩⟩

theorem validateLoop_ok_spec (ds : List Device) :
    ∀ (r : Bool) (i : Nat) (va : List Device) (ea : List String)
      (v : List Device) (e : List String),
      validateLoop r i va ea ds = .ok (v, e) →
      v = va ++ ds.filter devicePasses ∧
      e = ea ++ (List.enumFrom i ds).filterMap (fun p => deviceFailMsg? p.1 p.2) ∧
      v.length + e.length = va.length + ea.length + ds.length := by
  induction ds with
  | nil =>
    intro r i va ea v e h
    simp only [validateLoop, Except.ok.injEq, Prod.mk.injEq] at h
    refine ⟨by simp [h.1.symm], by simp [h.2.symm], ?_⟩
    rw [← h.1, ← h.2]
    simp
  | cons d rest ih =>
    intro r i va ea v e h
    unfold validateLoop at h
    cases hvd : validateDevice r d with
    | error exc => rw [hvd] at h; exact absurd h (by simp)
    | ok pr =>
      obtain ⟨r₁, derrs⟩ := pr
      rw [hvd] at h
      have hverdict := validateDevice_verdict r d r₁ derrs hvd i
      cases derrs with
      | nil =>
        obtain ⟨hp, hmsg⟩ := hverdict.1 rfl
        simp only [List.isEmpty_nil, if_true] at h
        obtain ⟨hv₁, he₁, hlen⟩ := ih r₁ (i + 1) (va ++ [d]) ea v e h
        refine ⟨?_, ?_, ?_⟩
        · rw [hv₁, List.filter_cons, hp]
          simp
        · rw [he₁, List.enumFrom_cons]
          simp [hmsg]
        · rw [hlen]
          simp only [List.length_append, List.length_cons, List.length_nil]
          omega
      | cons er ers =>
        obtain ⟨hp, hmsg⟩ := hverdict.2 (by simp)
        simp only [List.isEmpty_cons, if_false] at h
        obtain ⟨hv₁, he₁, hlen⟩ :=
          ih r₁ (i + 1) va (ea ++ [deviceErrorLine i d (er :: ers)]) v e h
        refine ⟨?_, ?_, ?_⟩
        · rw [hv₁, List.filter_cons, hp]
          simp
        · rw [he₁, List.enumFrom_cons]
          simp [hmsg]
        · rw [hlen]
          simp only [List.length_append, List.length_cons, List.length_nil]
          omega

/-! ## Merge idempotence lemmas -/

theorem customItems_key (device : Device) (kv : String × PyVal)
    (h : kv ∈ customItems device) : pyStartsWith kv.1 "custom_" = true :=
  (List.mem_filter.mp h).2

theorem custom_not_mem_preSync (device : Device) (v : PyVal) (k : String)
    (hc : pyStartsWith k "custom_" = true) :
    k ∉ assocKeys (hostVarsPre device ++ [("sync_mode", v)]) := by
  intro hmem
  rw [assocKeys_append] at hmem
  have hpre : assocKeys (hostVarsPre device)
      = ["ansible_host", "ansible_port", "ansible_user", "ansible_password",
         "ansible_network_os", "ansible_connection", "ansible_ssh_common_args",
         "device_type", "vendor", "location", "os_family", "model",
         "serial_number", "mgmt_ip"] := rfl
  rw [hpre] at hmem
  simp only [assocKeys, List.map_cons, List.map_nil, List.mem_append,
    List.mem_cons, List.not_mem_nil, or_false] at hmem
  rcases hmem with (h|h|h|h|h|h|h|h|h|h|h|h|h|h)|h <;>
    (rw [h] at hc; exact absurd hc (by decide))

theorem hostVarsDict_decomp (device : Device) (he : Bool) :
    hostVarsDict device he
      = (hostVarsPre device ++
          [("sync_mode", .vStr (if !he then "incremental" else "updated"))])
        ++ foldAssocSet (hostVarsPost device) (customItems device) := by
  unfold hostVarsDict
  exact foldAssocSet_append_of_disjoint (customItems device) _ (hostVarsPost device)
    (fun kv hm => custom_not_mem_preSync device _ kv.1 (customItems_key device kv hm))

theorem hostVarsItems_decomp (device : Device) (he : Bool) :
    hostVarsItems device he
      = (hostVarsItemsPre device ++
          [("sync_mode", .vStr (if !he then "incremental" else "updated"))])
        ++ hostVarsItemsPost device := by
  unfold hostVarsItems hostVarsItemsPre hostVarsItemsPost
  rw [hostVarsDict_decomp, List.filter_append, List.filter_append]
  cases he <;> rfl

theorem sync_not_mem_post (device : Device) :
    "sync_mode" ∉ assocKeys (hostVarsItemsPost device) := by
  intro hmem
  have h1 := assocKeys_filter_subset _ _ _ hmem
  rw [mem_assocKeys_foldAssocSet] at h1
  rcases h1 with h1 | h1
  · have hpost : assocKeys (hostVarsPost device) = ["last_updated", "source"] := rfl
    rw [hpost] at h1
    simp at h1
  · obtain ⟨kv, hkv, hk⟩ := List.mem_map.mp h1
    have := customItems_key device kv hkv
    rw [hk] at this
    exact absurd this (by decide)

theorem lastVal_ws_sync (device : Device) (he : Bool) :
    lastVal (hostVarsItems device he) "sync_mode"
      = some (.vStr (if !he then "incremental" else "updated")) := by
  rw [hostVarsItems_decomp, lastVal_append,
    lastVal_eq_none_of_not_mem _ _ (sync_not_mem_post device), optFirst_none,
    lastVal_append]
  have : lastVal [("sync_mode", PyVal.vStr (if !he then "incremental" else "updated"))]
      "sync_mode" = some (.vStr (if !he then "incremental" else "updated")) := by
    simp [lastVal]
  rw [this]
  rfl

theorem lastVal_ws_ne (device : Device) (he : Bool) (k : String)
    (hk : k ≠ "sync_mode") :
    lastVal (hostVarsItems device he) k
      = optFirst (lastVal (hostVarsItemsPost device) k)
          (lastVal (hostVarsItemsPre device) k) := by
  rw [hostVarsItems_decomp, lastVal_append, lastVal_append]
  have : lastVal [("sync_mode", PyVal.vStr (if !he then "incremental" else "updated"))]
      k = none := by
    have h1 : ¬ ("sync_mode" = k) := fun hh => hk hh.symm
    simp [lastVal, h1]
  rw [this, optFirst_none]

theorem assocKeys_hostVarsItems (device : Device) (he : Bool) :
    assocKeys (hostVarsItems device he)
      = (assocKeys (hostVarsItemsPre device) ++ ["sync_mode"])
        ++ assocKeys (hostVarsItemsPost device) := by
  rw [hostVarsItems_decomp, assocKeys_append, assocKeys_append]
  rfl

theorem sync_mem_ws (device : Device) (he : Bool) :
    "sync_mode" ∈ assocKeys (hostVarsItems device he) := by
  rw [assocKeys_hostVarsItems]
  simp

theorem hostDict_second_run (device : Device) (he : Bool)
    (a₀ : List (String × PyVal)) (hnd : (assocKeys a₀).Nodup) :
    foldAssocSet (foldAssocSet a₀ (hostVarsItems device he)) (hostVarsItems device true)
      = assocSet (foldAssocSet a₀ (hostVarsItems device he)) "sync_mode"
          (.vStr "updated") := by
  have hkeys : ∀ k ∈ assocKeys (hostVarsItems device true),
      k ∈ assocKeys (foldAssocSet a₀ (hostVarsItems device he)) := by
    intro k hkmem
    rw [mem_assocKeys_foldAssocSet]
    right
    rw [assocKeys_hostVarsItems] at hkmem ⊢
    exact hkmem
  have hsync : "sync_mode" ∈ assocKeys (foldAssocSet a₀ (hostVarsItems device he)) := by
    rw [mem_assocKeys_foldAssocSet]
    exact Or.inr (sync_mem_ws device he)
  apply assoc_ext
  · rw [assocKeys_foldAssocSet_of_subset _ _ hkeys]
    exact nodup_assocKeys_foldAssocSet _ _ hnd
  · rw [assocKeys_foldAssocSet_of_subset _ _ hkeys,
      assocKeys_assocSet_of_mem _ _ _ hsync]
  · intro k
    rw [assocFind?_foldAssocSet]
    by_cases hk : k = "sync_mode"
    · subst hk
      rw [lastVal_ws_sync, assocFind?_assocSet_self]
      rfl
    · rw [assocFind?_assocSet_ne _ _ _ _ hk, lastVal_ws_ne device true k hk,
        assocFind?_foldAssocSet, lastVal_ws_ne device he k hk]
      cases optFirst (lastVal (hostVarsItemsPost device) k)
          (lastVal (hostVarsItemsPre device) k) <;> rfl

theorem mergedInv_eq (device : Device) (gm : GroupMappings) (p : Bool)
    (inv : Inventory) (s : String)
    (hname : assocFind? device "name" = some (.vStr s)) :
    mergedInv device gm p inv
      = groupStep s "network"
          ((createDeviceGroups device gm).foldl (fun i g => groupStep s g i)
            ((hostVarsItems device (assocHasKey inv.hostVars s)).foldl
              (fun i kv => setVariable s kv.1 kv.2 i) (addHost s inv))) := by
  unfold mergedInv addDeviceToInventory
  rw [hname]

theorem mergedInv_hostVars (device : Device) (gm : GroupMappings) (p : Bool)
    (inv : Inventory) (s : String)
    (hname : assocFind? device "name" = some (.vStr s)) :
    (mergedInv device gm p inv).hostVars
      = assocMod (addHost s inv).hostVars s
          (fun a => foldAssocSet a (hostVarsItems device (assocHasKey inv.hostVars s))) := by
  rw [mergedInv_eq device gm p inv s hname, groupStep_hostVars, groupFold_hostVars,
    varPhase_eq]

theorem addHost_find (s : String) (inv : Inventory) :
    assocFind? (addHost s inv).hostVars s
      = some ((assocFind? inv.hostVars s).getD []) := by
  unfold addHost assocHasKey
  cases hf : assocFind? inv.hostVars s with
  | some a => simp [hf]
  | none =>
    simp only [hf, Option.isSome_none, Bool.false_eq_true, if_false, Option.getD_none]
    rw [assocFind?_append_right _ _ _ hf]
    simp [assocFind?]

theorem mergedInv_hostExists (device : Device) (gm : GroupMappings) (p : Bool)
    (inv : Inventory) (s : String)
    (hname : assocFind? device "name" = some (.vStr s)) :
    assocHasKey (mergedInv device gm p inv).hostVars s = true := by
  unfold assocHasKey
  rw [mergedInv_hostVars device gm p inv s hname, assocFind?_assocMod_self,
    addHost_find]
  rfl

theorem mergedInv_groups_mem (device : Device) (gm : GroupMappings) (p : Bool)
    (inv : Inventory) (s : String)
    (hname : assocFind? device "name" = some (.vStr s)) :
    (∀ g ∈ createDeviceGroups device gm,
      gcMem (mergedInv device gm p inv).groupChildren g s) ∧
    gcMem (mergedInv device gm p inv).groupChildren "network" s := by
  rw [mergedInv_eq device gm p inv s hname]
  exact ⟨fun g hg => gcMem_groupStep "network" s g s _
      (groupFold_mem_all (createDeviceGroups device gm) s _ g hg),
    groupStep_mem_self s "network" _⟩

/-! ## Claim theorems -/

/-- C1 counterexample: merging the same valid device twice on a fresh tree
does not reproduce the same tree — the `sync_mode` host variable flips
from `'incremental'` to `'updated'` on the second merge. -/
theorem merge_not_idempotent :
    mergedInv sampleDevice {} true (mergedInv sampleDevice {} true invEmpty)
      ≠ mergedInv sampleDevice {} true invEmpty := by
  intro heq
  have h1 : syncModeVar
      (mergedInv sampleDevice {} true (mergedInv sampleDevice {} true invEmpty))
      "rtr-01" = "updated" := rfl
  rw [heq] at h1
  have h2 : syncModeVar (mergedInv sampleDevice {} true invEmpty) "rtr-01"
      = "incremental" := rfl
  rw [h1] at h2
  exact absurd h2 (by decide)

/-- C1 amended: the merge is idempotent except for the `sync_mode`
bookkeeping variable — re-running the upsert with identical input on the
tree the first run produced yields exactly that tree with only the host's
`sync_mode` variable rewritten to `'updated'`: one host, one value per
variable, no duplicated group memberships, and no other variable changed
(on trees whose per-host variable dicts have no duplicate keys, which the
collaborator guarantees). -/
theorem merge_idempotent_mod_syncmode (device : Device) (gm : GroupMappings)
    (p : Bool) (inv : Inventory) (s : String)
    (hname : assocFind? device "name" = some (.vStr s)) (hwf : InvVarsWF inv) :
    mergedInv device gm p (mergedInv device gm p inv)
      = setVariable s "sync_mode" (.vStr "updated") (mergedInv device gm p inv) := by
  have hex2 : assocHasKey (mergedInv device gm p inv).hostVars s = true :=
    mergedInv_hostExists device gm p inv s hname
  have haddid : addHost s (mergedInv device gm p inv) = mergedInv device gm p inv := by
    unfold addHost
    rw [hex2]
    simp
  have hvar2 :
      (hostVarsItems device true).foldl (fun i kv => setVariable s kv.1 kv.2 i)
          (mergedInv device gm p inv)
        = setVariable s "sync_mode" (.vStr "updated") (mergedInv device gm p inv) := by
    rw [varPhase_eq]
    have ha₀ : assocFind? (addHost s inv).hostVars s
        = some ((assocFind? inv.hostVars s).getD []) := addHost_find s inv
    have hnd : (assocKeys ((assocFind? inv.hostVars s).getD [])).Nodup := by
      cases hf : assocFind? inv.hostVars s with
      | some a => simpa using hwf (s, a) (assocFind?_mem _ _ _ hf)
      | none => simp [assocKeys]
    have h1 : (mergedInv device gm p inv).hostVars
        = assocMod (addHost s inv).hostVars s
            (fun a => foldAssocSet a (hostVarsItems device (assocHasKey inv.hostVars s))) :=
      mergedInv_hostVars device gm p inv s hname
    unfold setVariable
    rw [show (mergedInv device gm p inv).groupChildren
        = (setVariable s "sync_mode" (.vStr "updated")
            (mergedInv device gm p inv)).groupChildren from rfl]
    rw [setVariable_groupChildren]
    congr 1
    rw [h1, assocMod_comp, assocMod_comp]
    exact assocMod_congr _ _ _ _ _ ha₀
      (hostDict_second_run device (assocHasKey inv.hostVars s) _ hnd)
  have hmem := mergedInv_groups_mem device gm p inv s hname
  rw [mergedInv_eq device gm p (mergedInv device gm p inv) s hname, hex2, haddid,
    hvar2,
    groupFold_noop _ s _ (fun g hg => by
      rw [setVariable_groupChildren]
      exact hmem.1 g hg),
    groupStep_noop s "network" _ (by
      rw [setVariable_groupChildren]
      exact hmem.2)]

/-- C1 witness: the amended statement at the concrete device on the empty
tree. -/
theorem merge_idempotent_mod_syncmode_witness :
    mergedInv sampleDevice {} true (mergedInv sampleDevice {} true invEmpty)
      = setVariable "rtr-01" "sync_mode" (.vStr "updated")
          (mergedInv sampleDevice {} true invEmpty) :=
  merge_idempotent_mod_syncmode sampleDevice {} true invEmpty "rtr-01" rfl
    (by intro e he; simp [invEmpty] at he)

/-- C2: the field-validation stage is claimed total, but on a record whose
`name` is present and non-string the length check appends an error and the
subsequent `re.match` call raises a `TypeError` that aborts the batch. -/
theorem validator_raises_on_nonstring_name :
    validateIndividualDevices [badNameDevice]
      = .error (.typeError "expected string or bytes-like object") := rfl

/-- C4: `preserve_existing` influences only the log lines of
`_add_device_to_inventory`, never the merged tree: the inventory component
of the upsert is identical for both flag values, on every device record,
group mapping and starting tree (also in the error case). -/
theorem preserve_existing_only_logging (device : Device) (gm : GroupMappings)
    (inv : Inventory) :
    mergedInv device gm true inv = mergedInv device gm false inv ∧
    (addDeviceToInventory device gm true inv).map Prod.fst
      = (addDeviceToInventory device gm false inv).map Prod.fst := by
  unfold mergedInv addDeviceToInventory
  cases h : assocFind? device "name" with
  | none => exact ⟨rfl, rfl⟩
  | some v => cases v <;> exact ⟨rfl, rfl⟩

/-- C8: `_apply_filters` is the conjunction over the four axes — each axis
with a non-empty inclusion list requires membership of the record's field,
an empty axis imposes no constraint, and with all axes empty every record
matches. -/
theorem filter_conjunction (device : Device) (filters : Filters) :
    applyFilters device filters
      = ((filters.device_types.isEmpty
            || pyIn (pyGet device "device_type") filters.device_types) &&
         (filters.vendors.isEmpty || pyIn (pyGet device "vendor") filters.vendors) &&
         (filters.locations.isEmpty || pyIn (pyGet device "location") filters.locations) &&
         (filters.os_families.isEmpty
            || pyIn (pyGet device "os_family") filters.os_families)) ∧
    applyFilters device {} = true := by
  refine ⟨?_, rfl⟩
  unfold applyFilters
  rw [ite_and_not_helper, ite_and_not_helper, ite_and_not_helper, ite_and_not_helper]
  simp [Bool.not_not, Bool.and_assoc]

/-- C9: the spec's group-derivation scenario — for the device with
vendor cisco, location dc1, type router, OS ios and all static mapping
booleans enabled, the derived groups are exactly vendor_cisco,
location_dc1, type_router, os_ios in that order, the merged tree places
the host in exactly those groups plus `network`, and the `network`
baseline group is joined under every mapping config and starting tree. -/
theorem group_derivation (gm : GroupMappings) (p : Bool) (inv : Inventory) :
    createDeviceGroups c9Device {}
      = ["vendor_cisco", "location_dc1", "type_router", "os_ios"] ∧
    groupsOf (mergedInv c9Device {} true invEmpty) "rtr-01"
      = ["vendor_cisco", "location_dc1", "type_router", "os_ios", "network"] ∧
    "rtr-01" ∈ childrenOfGroup (mergedInv c9Device gm p inv) "network" :=
  ⟨rfl, rfl, merge_network_mem c9Device gm p inv "rtr-01" rfl⟩

/-- C5: the Safety Gate rejects any batch longer than
`max_devices_per_sync` with the size violation, admits a batch of exactly
the bound to the deletion check, and an oversized batch reaching the gate
makes the incremental run fail before any merge. -/
theorem safety_cap (devices : List Device) (cfg : SafetyConfig) :
    ((devices.length : Int) > cfg.max_devices_per_sync →
      validateIncrementalSafety devices cfg = .error (.ansibleError
        ("Incremental sync exceeds maximum devices limit: " ++
          toString devices.length ++ " > " ++ toString cfg.max_devices_per_sync))) ∧
    ((devices.length : Int) = cfg.max_devices_per_sync →
      validateIncrementalSafety devices cfg = checkDeletions devices cfg) ∧
    (∀ filters gm inv derrs,
      validateIndividualDevices devices = .ok (devices, derrs) → derrs = [] →
      (devices.length : Int) > cfg.max_devices_per_sync →
      (parseRun .incremental devices filters gm cfg inv).isOk = false) := by
  refine ⟨gate_size_error devices cfg, ?_, ?_⟩
  · intro h
    exact gate_size_ok devices cfg (by omega)
  · intro filters gm inv derrs hv hd h
    unfold parseRun
    cases hs : schemaRequiredOk devices with
    | false =>
      simp only [hs]
      rfl
    | true =>
      simp only [hs, Bool.not_true, Bool.false_eq_true, if_false]
      rw [hv]
      subst hd
      simp only [List.isEmpty_nil, Bool.not_true, Bool.false_and, Bool.false_eq_true,
        if_false]
      rw [gate_size_error devices cfg h]
      rfl

/-- C5 witness: a two-record batch against a cap of one is rejected with
the size violation, a one-record batch passes the size check, and the
oversized incremental run fails end to end. -/
theorem safety_cap_witness :
    validateIncrementalSafety [sampleDevice, sampleDevice] cfgMax1
      = .error (.ansibleError
        ("Incremental sync exceeds maximum devices limit: " ++
          toString ([sampleDevice, sampleDevice] : List Device).length ++ " > " ++
          toString cfgMax1.max_devices_per_sync)) ∧
    validateIncrementalSafety [sampleDevice] cfgMax1
      = checkDeletions [sampleDevice] cfgMax1 ∧
    (parseRun .incremental [sampleDevice, sampleDevice] {} {} cfgMax1 invEmpty).isOk
      = false :=
  ⟨(safety_cap [sampleDevice, sampleDevice] cfgMax1).1 (by decide),
   (safety_cap [sampleDevice] cfgMax1).2.1 (by decide),
   (safety_cap [sampleDevice, sampleDevice] cfgMax1).2.2 {} {} invEmpty [] rfl rfl
     (by decide)⟩

/-- C6: within the size bound, a batch containing a record with
`_state == 'absent'` is rejected whole with a violation naming the first
such device when `allow_deletions` is false, and passes the gate when
`allow_deletions` is true. -/
theorem deletion_gate (devices : List Device) (cfg : SafetyConfig)
    (hsize : ¬ ((devices.length : Int) > cfg.max_devices_per_sync)) :
    (cfg.allow_deletions = false →
      ∀ d₀, devices.find? (fun d => pyEq (pyGet d "_state") (.vStr "absent")) = some d₀ →
        validateIncrementalSafety devices cfg = .error (.ansibleError
          ("Device deletion not allowed in safety mode: " ++ pyFStr (pyGet d₀ "name")))) ∧
    (cfg.allow_deletions = true → validateIncrementalSafety devices cfg = .ok ()) := by
  constructor
  · intro hneg d₀ hfind
    rw [gate_size_ok devices cfg hsize]
    unfold checkDeletions
    rw [hneg, if_neg (by simp), deletionScan_eq_find, hfind]
  · intro hpos
    rw [gate_size_ok devices cfg hsize]
    unfold checkDeletions
    rw [hpos, if_pos rfl]

/-- C6 witness: a single deletion-bearing record under the default config
is rejected naming the device, and passes when deletions are allowed. -/
theorem deletion_gate_witness :
    validateIncrementalSafety [deleteDevice] {} = .error (.ansibleError
      ("Device deletion not allowed in safety mode: " ++
        pyFStr (pyGet deleteDevice "name"))) ∧
    validateIncrementalSafety [deleteDevice] { allow_deletions := true } = .ok () :=
  ⟨(deletion_gate [deleteDevice] {} (by decide)).1 rfl deleteDevice rfl,
   (deletion_gate [deleteDevice] { allow_deletions := true } (by decide)).2 rfl⟩

/-- C3 counterexample: a full-sync batch of two devices against a cap of
one is not rejected — the run succeeds and merges both records, refuting
the claim that the Safety Gate still rejects oversized full-sync batches. -/
theorem fullsync_oversized_not_rejected :
    ((parseRun .full_sync [sampleDevice, sampleDevice] {} {} cfgMax1 invEmpty).map
      (fun r => (r.2.processed_devices, r.2.skipped_devices))) = .ok (2, 0) ∧
    (([sampleDevice, sampleDevice] : List Device).length : Int)
      > cfgMax1.max_devices_per_sync :=
  ⟨rfl, by decide⟩

/-- C3 amended: full-sync mode skips schema validation, field validation
and also the Safety Gate — it goes straight to the shared processing tail
(filtering, merge, metadata), so even a batch the gate would reject for
size is processed without rejection. -/
theorem fullsync_skips_safety_gate (devices : List Device) (filters : Filters)
    (gm : GroupMappings) (cfg : SafetyConfig) (inv : Inventory)
    (h : (devices.length : Int) > cfg.max_devices_per_sync) :
    parseRun .full_sync devices filters gm cfg inv
      = .ok (finishRun "full_sync" devices filters gm cfg inv) ∧
    validateIncrementalSafety devices cfg = .error (.ansibleError
      ("Incremental sync exceeds maximum devices limit: " ++
        toString devices.length ++ " > " ++ toString cfg.max_devices_per_sync)) :=
  ⟨rfl, gate_size_error devices cfg h⟩

/-- C7 counterexample: a two-record batch with exactly one record failing
a validation rule (M = 1 < N = 2) on which the validator does not return
the one passing record and one error string — it raises a `TypeError`
(the non-string name reaches `re.match`). -/
theorem quarantine_counterexample :
    devicePasses sampleDevice = true ∧ devicePasses badNameDevice = false ∧
    validateIndividualDevices [sampleDevice, badNameDevice]
      = .error (.typeError "expected string or bytes-like object") :=
  ⟨rfl, rfl, rfl⟩

/-- C7 amended: whenever the validator returns (instead of raising), it
returns exactly the records whose independent per-record check passes,
unchanged and in input order, and one aggregated error string per failing
record (indexed by input position), so N−M valid records and M errors. -/
theorem field_validation_quarantine (devices valid : List Device)
    (derrs : List String)
    (h : validateIndividualDevices devices = .ok (valid, derrs)) :
    valid = devices.filter devicePasses ∧
    derrs = (List.enumFrom 0 devices).filterMap (fun p => deviceFailMsg? p.1 p.2) ∧
    valid.length + derrs.length = devices.length := by
  obtain ⟨hv, he, hlen⟩ :=
    validateLoop_ok_spec devices false 0 [] [] valid derrs h
  refine ⟨by simpa using hv, by simpa using he, by simpa using hlen⟩

/-- C7 witness: the amended statement at a concrete batch of one passing
and one vendor-failing record — one record forwarded unchanged, one
aggregated error produced. -/
theorem field_validation_quarantine_witness :
    [sampleDevice] = ([sampleDevice, badVendorDevice] : List Device).filter devicePasses ∧
    ["Device 2 (rtr-02): Invalid vendor: hp. Must be one of: [\x27cisco\x27, \x27arista\x27, \x27juniper\x27, \x27fortinet\x27, \x27palo_alto\x27, \x27f5\x27, \x27mikrotik\x27]"]
      = (List.enumFrom 0 ([sampleDevice, badVendorDevice] : List Device)).filterMap
          (fun p => deviceFailMsg? p.1 p.2) ∧
    ([sampleDevice] : List Device).length
        + (["Device 2 (rtr-02): Invalid vendor: hp. Must be one of: [\x27cisco\x27, \x27arista\x27, \x27juniper\x27, \x27fortinet\x27, \x27palo_alto\x27, \x27f5\x27, \x27mikrotik\x27]"] : List String).length
      = ([sampleDevice, badVendorDevice] : List Device).length :=
  field_validation_quarantine [sampleDevice, badVendorDevice] [sampleDevice]
    ["Device 2 (rtr-02): Invalid vendor: hp. Must be one of: [\x27cisco\x27, \x27arista\x27, \x27juniper\x27, \x27fortinet\x27, \x27palo_alto\x27, \x27f5\x27, \x27mikrotik\x27]"]
    rfl

/-- C10: in a completed incremental run the recorded counts satisfy
`processed + skipped = number of records that passed field validation` —
quarantined records are removed before the processing loop and are not
counted as skipped; skipped covers only the loop's reasons (missing name,
filter mismatch, merge exception). -/
theorem skipped_excludes_quarantined (devices : List Device) (filters : Filters)
    (gm : GroupMappings) (cfg : SafetyConfig) (inv : Inventory)
    (valid : List Device) (derrs : List String) (inv' : Inventory) (meta : SyncMeta)
    (hv : validateIndividualDevices devices = .ok (valid, derrs))
    (hp : parseRun .incremental devices filters gm cfg inv = .ok (inv', meta)) :
    meta.processed_devices + meta.skipped_devices = valid.length := by
  unfold parseRun at hp
  cases hs : schemaRequiredOk devices with
  | false => rw [hs] at hp; simp at hp
  | true =>
    rw [hs] at hp
    simp only [Bool.not_true, Bool.false_eq_true, if_false] at hp
    rw [hv] at hp
    cases derrs with
    | nil =>
      simp only [List.isEmpty_nil, Bool.not_true, Bool.false_and, Bool.false_eq_true,
        if_false] at hp
      cases hg : validateIncrementalSafety devices cfg with
      | error e => rw [hg] at hp; simp at hp
      | ok u =>
        rw [hg] at hp
        simp only [Except.ok.injEq] at hp
        have hmeta : meta = (finishRun "incremental" devices filters gm cfg inv).2 := by
          rw [hp]
        rw [validate_noerrors_all_valid devices valid hv, hmeta]
        have := processDevices_counts filters gm cfg devices inv 0 0
        simpa [finishRun] using this
    | cons er ers =>
      simp only [List.isEmpty_cons, Bool.not_false, Bool.true_and, if_true] at hp
      cases hvl : valid.length == 0 with
      | true => rw [hvl] at hp; simp at hp
      | false =>
        rw [hvl] at hp
        simp only [Bool.false_eq_true, if_false, if_true] at hp
        cases hg : validateIncrementalSafety valid cfg with
        | error e => rw [hg] at hp; simp at hp
        | ok u =>
          rw [hg] at hp
          simp only [Except.ok.injEq] at hp
          have hmeta : meta = (finishRun "incremental" valid filters gm cfg inv).2 := by
            rw [hp]
          rw [hmeta]
          have := processDevices_counts filters gm cfg valid inv 0 0
          simpa [finishRun] using this

/-- C10 witness: a one-record valid incremental run has processed 1 and
skipped 0, matching the single record that passed field validation. -/
theorem skipped_excludes_quarantined_witness :
    parseRun .incremental [sampleDevice] {} {} {} invEmpty
      = .ok (mergedInv sampleDevice {} true invEmpty,
             { sync_mode := "incremental", processed_devices := 1, skipped_devices := 0,
               deletions_allowed := false, preserve_existing := true }) ∧
    (1 : Nat) + 0 = ([sampleDevice] : List Device).length :=
  ⟨rfl,
   skipped_excludes_quarantined [sampleDevice] {} {} {} invEmpty [sampleDevice] []
     (mergedInv sampleDevice {} true invEmpty)
     { sync_mode := "incremental", processed_devices := 1, skipped_devices := 0,
       deletions_allowed := false, preserve_existing := true } rfl rfl⟩

/-- C3 witness: the amended statement at the concrete oversized batch. -/
theorem fullsync_skips_safety_gate_witness :
    parseRun .full_sync [sampleDevice, sampleDevice] {} {} cfgMax1 invEmpty
      = .ok (finishRun "full_sync" [sampleDevice, sampleDevice] {} {} cfgMax1 invEmpty) ∧
    validateIncrementalSafety [sampleDevice, sampleDevice] cfgMax1
      = .error (.ansibleError
        ("Incremental sync exceeds maximum devices limit: " ++
          toString ([sampleDevice, sampleDevice] : List Device).length ++ " > " ++
          toString cfgMax1.max_devices_per_sync)) :=
  fullsync_skips_safety_gate [sampleDevice, sampleDevice] {} {} cfgMax1 invEmpty
    (by decide)

end CmdbOrchestration


